import Mathlib

/-!
Verification development for the DocuExtract AI backend (Python/FastAPI).

The definitions below are a shallow embedding of the backend source:

* `src/backend/extraction.py` — confidence scoring, LLM response parsing,
  orchestration with local/remote fallback;
* `src/backend/pdf_parser.py`  — file-type detection and document preparation;
* `src/backend/database.py`   — persistence, deduplication, listing, CSV export;
* `src/backend/main.py`       — the extract endpoint.

Python dictionaries produced by `json.loads` are modelled as association
lists of `String × JValue`; Python floats are modelled as rationals (every
numeric literal appearing in the source is exactly representable and no
score computation comes close enough to the 0.8 gate for rounding to
matter); network clients (`ollama`, `google.genai`), `PIL`, `pdf2image` and
the `hashlib` digest are modelled as explicit oracle/external parameters,
since their internals are outside the repository.
-/

/-- JSON-like values: the results of Python `json.loads` and the field values
of extraction records. -/
inductive JValue where
  | null
  | bool (b : Bool)
  | num (q : ℚ)
  | str (s : String)
  | arr (items : List JValue)
  | obj (fields : List (String × JValue))

/-- Python truthiness of the result of `dict.get(key)`: an absent key gives
`None`, and `None`, `False`, `0`, the empty string, the empty list and the
empty dict are all falsy. -/
def truthy : Option JValue → Bool
  | none => false
  | some JValue.null => false
  | some (JValue.bool b) => b
  | some (JValue.num q) => decide (q ≠ 0)
  | some (JValue.str s) => decide (s ≠ "")
  | some (JValue.arr l) => !l.isEmpty
  | some (JValue.obj l) => !l.isEmpty

/-- `d.get(k)` on a Python dict modelled as an association list: the value at
the first matching key, `None` when absent. -/
def dictGet (d : List (String × JValue)) (k : String) : Option JValue :=
  (d.find? (fun p => p.1 = k)).map (fun p => p.2)

/-- `d.get(k, default)`. -/
def dictGetD (d : List (String × JValue)) (k : String) (dflt : JValue) : JValue :=
  (dictGet d k).getD dflt

/-- The dict `d` with key `k` bound to `v` (Python `d[k] = v`): the new
binding shadows and replaces any earlier binding of `k`. -/
def dictSet (d : List (String × JValue)) (k : String) (v : JValue) :
    List (String × JValue) :=
  (k, v) :: d.filter (fun p => p.1 ≠ k)

/-- The dict `d` with key `k` removed entirely. -/
def dictRemove (d : List (String × JValue)) (k : String) :
    List (String × JValue) :=
  d.filter (fun p => p.1 ≠ k)

theorem dictGet_remove_self (d : List (String × JValue)) (k : String) :
    dictGet (dictRemove d k) k = none := by
  unfold dictGet dictRemove
  induction d with
  | nil => rfl
  | cons p d ih =>
    by_cases hp : p.1 = k
    · rw [List.filter_cons_of_neg (by simpa using hp)]
      exact ih
    · rw [List.filter_cons_of_pos (by simpa using hp),
        List.find?_cons_of_neg _ (by simpa using hp)]
      exact ih

theorem dictGet_remove_other (d : List (String × JValue)) (k k' : String)
    (h : k' ≠ k) : dictGet (dictRemove d k) k' = dictGet d k' := by
  unfold dictGet dictRemove
  induction d with
  | nil => rfl
  | cons p d ih =>
    by_cases hp : p.1 = k
    · have hk' : ¬ p.1 = k' := fun he => h (he.symm.trans hp)
      rw [List.filter_cons_of_neg (by simpa using hp),
        List.find?_cons_of_neg _ (by simpa using hk')]
      exact ih
    · rw [List.filter_cons_of_pos (by simpa using hp)]
      by_cases hp' : p.1 = k'
      · rw [List.find?_cons_of_pos _ (by simpa using hp'),
          List.find?_cons_of_pos _ (by simpa using hp')]
      · rw [List.find?_cons_of_neg _ (by simpa using hp'),
          List.find?_cons_of_neg _ (by simpa using hp')]
        exact ih

theorem dictGet_set_self (d : List (String × JValue)) (k : String) (v : JValue) :
    dictGet (dictSet d k v) k = some v := by
  unfold dictGet dictSet
  rw [List.find?_cons_of_pos _ (by simp)]
  rfl

theorem dictGet_set_other (d : List (String × JValue)) (k k' : String) (v : JValue)
    (h : k' ≠ k) : dictGet (dictSet d k v) k' = dictGet d k' := by
  have step : dictGet (dictSet d k v) k' = dictGet (dictRemove d k) k' := by
    unfold dictGet dictSet dictRemove
    rw [List.find?_cons_of_neg _ (by simpa using fun he => h he.symm)]
  rw [step, dictGet_remove_other d k k' h]

/-!
## Confidence scoring —  `extraction.calculate_confidence`

```python
def calculate_confidence(extracted_data):
    required_fields = ["vendorName", "totalAmount", "date"]
    present_fields = sum(1 for field in required_fields if extracted_data.get(field))
    base_score = present_fields / len(required_fields)
    if extracted_data.get("lineItems"):
        base_score += 0.1
    if extracted_data.get("invoiceNumber"):
        base_score += 0.1
    return min(base_score, 1.0)
```
-/

/-- `extraction.calculate_confidence`, with Python floats modelled as `ℚ`. -/
def calculate_confidence (extracted_data : List (String × JValue)) : ℚ :=
  let required_fields : List String := ["vendorName", "totalAmount", "date"]
  let present_fields :=
    (required_fields.filter (fun field => truthy (dictGet extracted_data field))).length
  let base_score : ℚ := (present_fields : ℚ) / (required_fields.length : ℚ)
  let base_score := if truthy (dictGet extracted_data "lineItems")
    then base_score + 1/10 else base_score
  let base_score := if truthy (dictGet extracted_data "invoiceNumber")
    then base_score + 1/10 else base_score
  min base_score 1

/-- Closed form of `calculate_confidence` in terms of the truthiness of the
five fields it reads. -/
theorem calculate_confidence_closed (d : List (String × JValue)) :
    calculate_confidence d =
      min (((if truthy (dictGet d "vendorName") then (1 : ℚ) else 0)
          + (if truthy (dictGet d "totalAmount") then (1 : ℚ) else 0)
          + (if truthy (dictGet d "date") then (1 : ℚ) else 0)) / 3
        + (if truthy (dictGet d "lineItems") then (1 : ℚ) else 0) / 10
        + (if truthy (dictGet d "invoiceNumber") then (1 : ℚ) else 0) / 10) 1 := by
  unfold calculate_confidence
  cases h1 : truthy (dictGet d "vendorName") <;>
    cases h2 : truthy (dictGet d "totalAmount") <;>
      cases h3 : truthy (dictGet d "date") <;>
        cases h4 : truthy (dictGet d "lineItems") <;>
          cases h5 : truthy (dictGet d "invoiceNumber") <;>
            simp [List.filter, h1, h2, h3, h4, h5] <;> norm_num

/-- The confidence formula as §4.5 of the spec words it: base count of the
three required fields over 3, plus a 0.1 bonus for `lineItems`, plus a 0.1
bonus for `invoiceNumber`, clamped to 1. "Present and non-empty" is read as
Python truthiness, exactly the test the scorer applies. -/
def score_spec_formula (record : List (String × JValue)) : ℚ :=
  min 1
    ((((["vendorName", "totalAmount", "date"].filter
        (fun field => truthy (dictGet record field))).length : ℚ)) / 3
      + (if truthy (dictGet record "lineItems") then 1/10 else 0)
      + (if truthy (dictGet record "invoiceNumber") then 1/10 else 0))

/-- C4: for every structured record, `calculate_confidence` equals the spec
formula `min(1, present/3 + 0.1·[lineItems truthy] + 0.1·[invoiceNumber
truthy])`. The function is a pure Lean function of its argument, hence
deterministic and side-effect free. -/
theorem calculate_confidence_eq_spec_formula (record : List (String × JValue)) :
    calculate_confidence record = score_spec_formula record := by
  unfold calculate_confidence score_spec_formula
  cases h1 : truthy (dictGet record "vendorName") <;>
    cases h2 : truthy (dictGet record "totalAmount") <;>
      cases h3 : truthy (dictGet record "date") <;>
        cases h4 : truthy (dictGet record "lineItems") <;>
          cases h5 : truthy (dictGet record "invoiceNumber") <;>
            simp [List.filter, h1, h2, h3, h4, h5, min_comm]

/-- An `if _ then 1 else 0` term is monotone under implication of conditions. -/
theorem ite_one_zero_le {p q : Bool} (h : p = true → q = true) :
    (if p then (1 : ℚ) else 0) ≤ (if q then (1 : ℚ) else 0) := by
  cases p
  · cases q <;> norm_num
  · rw [h rfl]

/-- An `if _ then 1 else 0` term is nonnegative. -/
theorem ite_one_zero_nonneg (p : Bool) : (0 : ℚ) ≤ (if p then (1 : ℚ) else 0) := by
  cases p <;> norm_num

/-- C8: the score is monotone non-decreasing as more of the five scored
fields become present (truthy), and it always lies in the interval [0, 1]. -/
theorem calculate_confidence_monotone_and_bounded
    (d d' : List (String × JValue))
    (h : ∀ f ∈ ["vendorName", "totalAmount", "date", "invoiceNumber", "lineItems"],
      truthy (dictGet d f) = true → truthy (dictGet d' f) = true) :
    calculate_confidence d ≤ calculate_confidence d'
      ∧ 0 ≤ calculate_confidence d ∧ calculate_confidence d ≤ 1 := by
  have hv := h "vendorName" (by simp)
  have ht := h "totalAmount" (by simp)
  have hd := h "date" (by simp)
  have hi := h "invoiceNumber" (by simp)
  have hl := h "lineItems" (by simp)
  rw [calculate_confidence_closed d, calculate_confidence_closed d']
  refine ⟨min_le_min ?_ le_rfl, le_min ?_ (by norm_num), min_le_right _ _⟩
  · refine add_le_add (add_le_add ?_ ?_) ?_
    · exact (div_le_div_iff_of_pos_right (by norm_num)).mpr
        (add_le_add (add_le_add (ite_one_zero_le hv) (ite_one_zero_le ht))
          (ite_one_zero_le hd))
    · exact (div_le_div_iff_of_pos_right (by norm_num)).mpr (ite_one_zero_le hl)
    · exact (div_le_div_iff_of_pos_right (by norm_num)).mpr (ite_one_zero_le hi)
  · refine add_nonneg (add_nonneg ?_ ?_) ?_
    · exact div_nonneg
        (add_nonneg (add_nonneg (ite_one_zero_nonneg _) (ite_one_zero_nonneg _))
          (ite_one_zero_nonneg _)) (by norm_num)
    · exact div_nonneg (ite_one_zero_nonneg _) (by norm_num)
    · exact div_nonneg (ite_one_zero_nonneg _) (by norm_num)

/-- Witness for C8 at concrete records: adding a truthy `date` field can only
raise the score, and the score of the smaller record lies in [0, 1]. -/
theorem calculate_confidence_monotone_and_bounded_witness :
    calculate_confidence [("vendorName", JValue.str "Acme")]
        ≤ calculate_confidence
            [("vendorName", JValue.str "Acme"), ("date", JValue.str "2024-01-15")]
      ∧ 0 ≤ calculate_confidence [("vendorName", JValue.str "Acme")]
      ∧ calculate_confidence [("vendorName", JValue.str "Acme")] ≤ 1 :=
  calculate_confidence_monotone_and_bounded
    [("vendorName", JValue.str "Acme")]
    [("vendorName", JValue.str "Acme"), ("date", JValue.str "2024-01-15")]
    (by decide)

/-- C10: the scorer counts a field as absent whenever its value is Python
falsy: binding `totalAmount` to `0`, `vendorName` to the empty string, or
`lineItems` to the empty list scores exactly like removing the field
entirely — a document legitimately totaling zero scores as if its total
were missing. -/
theorem calculate_confidence_falsy_eq_missing (d : List (String × JValue)) :
    calculate_confidence (dictSet d "totalAmount" (JValue.num 0))
        = calculate_confidence (dictRemove d "totalAmount")
      ∧ calculate_confidence (dictSet d "vendorName" (JValue.str ""))
        = calculate_confidence (dictRemove d "vendorName")
      ∧ calculate_confidence (dictSet d "lineItems" (JValue.arr []))
        = calculate_confidence (dictRemove d "lineItems") := by
  refine ⟨?_, ?_, ?_⟩
  · rw [calculate_confidence_closed, calculate_confidence_closed,
      dictGet_set_self, dictGet_remove_self,
      dictGet_set_other d "totalAmount" "vendorName" _ (by decide),
      dictGet_remove_other d "totalAmount" "vendorName" (by decide),
      dictGet_set_other d "totalAmount" "date" _ (by decide),
      dictGet_remove_other d "totalAmount" "date" (by decide),
      dictGet_set_other d "totalAmount" "lineItems" _ (by decide),
      dictGet_remove_other d "totalAmount" "lineItems" (by decide),
      dictGet_set_other d "totalAmount" "invoiceNumber" _ (by decide),
      dictGet_remove_other d "totalAmount" "invoiceNumber" (by decide)]
    simp [truthy]
  · rw [calculate_confidence_closed, calculate_confidence_closed,
      dictGet_set_self, dictGet_remove_self,
      dictGet_set_other d "vendorName" "totalAmount" _ (by decide),
      dictGet_remove_other d "vendorName" "totalAmount" (by decide),
      dictGet_set_other d "vendorName" "date" _ (by decide),
      dictGet_remove_other d "vendorName" "date" (by decide),
      dictGet_set_other d "vendorName" "lineItems" _ (by decide),
      dictGet_remove_other d "vendorName" "lineItems" (by decide),
      dictGet_set_other d "vendorName" "invoiceNumber" _ (by decide),
      dictGet_remove_other d "vendorName" "invoiceNumber" (by decide)]
    simp [truthy]
  · rw [calculate_confidence_closed, calculate_confidence_closed,
      dictGet_set_self, dictGet_remove_self,
      dictGet_set_other d "lineItems" "vendorName" _ (by decide),
      dictGet_remove_other d "lineItems" "vendorName" (by decide),
      dictGet_set_other d "lineItems" "totalAmount" _ (by decide),
      dictGet_remove_other d "lineItems" "totalAmount" (by decide),
      dictGet_set_other d "lineItems" "date" _ (by decide),
      dictGet_remove_other d "lineItems" "date" (by decide),
      dictGet_set_other d "lineItems" "invoiceNumber" _ (by decide),
      dictGet_remove_other d "lineItems" "invoiceNumber" (by decide)]
    simp [truthy]

/-!
## Response normalization — `extraction.parse_json_response`

```python
def parse_json_response(text):
    if "```" in text:
        text = text.replace("```json", "").replace("```", "")
    first_brace = text.find("{")
    last_brace = text.rfind("}")
    if first_brace != -1 and last_brace != -1:
        text = text[first_brace:last_brace + 1]
    try:
        return json.loads(text)
    except json.JSONDecodeError as e:
        raise ValueError(f"Failed to parse JSON response: ...")
```

`json.loads` is the standard JSON grammar; it is embedded below as a
fuel-bounded recursive-descent parser (the fuel is generous: each call
consumes at least one character every two levels).
-/

/-- The opening brace character, written by code point. -/
def obrace : Char := Char.ofNat 123

/-- The closing brace character, written by code point. -/
def cbrace : Char := Char.ofNat 125

/-- Python `pat in s` (substring containment). -/
def strContainsSub (s pat : String) : Bool :=
  (List.range (s.data.length + 1)).any (fun i => pat.data.isPrefixOf (s.data.drop i))

/-- ASCII lower-casing of one character (the filenames and error messages
compared in the source are ASCII). -/
def charLower (c : Char) : Char :=
  if 65 ≤ c.toNat && c.toNat ≤ 90 then Char.ofNat (c.toNat + 32) else c

/-- Python `str.lower`, restricted to ASCII. -/
def pyLower (s : String) : String := ⟨s.data.map charLower⟩

/-- Python `str.endswith`. -/
def strEndsWith (s suf : String) : Bool := suf.data.isSuffixOf s.data

/-- One fuel-bounded pass of Python `str.replace` over the character list:
left to right, non-overlapping occurrences of `pat` become `rep`. The fuel
equals the input length, enough for any non-empty pattern. -/
def replaceSub (pat rep : List Char) : Nat → List Char → List Char
  | 0, cs => cs
  | Nat.succ _, [] => []
  | Nat.succ fuel, c :: cs =>
    if pat.isPrefixOf (c :: cs) then
      rep ++ replaceSub pat rep fuel ((c :: cs).drop pat.length)
    else
      c :: replaceSub pat rep fuel cs

/-- Python `s.replace(pat, rep)` for non-empty `pat`. -/
def strReplace (s pat rep : String) : String :=
  ⟨replaceSub pat.data rep.data s.data.length s.data⟩

/-- Index of the last occurrence of `c` (Python `str.rfind`, as an option). -/
def lastIdxOf (cs : List Char) (c : Char) : Option Nat :=
  match cs.reverse.findIdx? (fun x => x = c) with
  | some i => some (cs.length - 1 - i)
  | none => none

/-- JSON whitespace. -/
def jsonWs (c : Char) : Bool := c = ' ' || c = '\t' || c = '\n' || c = '\r'

/-- Drop leading JSON whitespace. -/
def skipWs : List Char → List Char
  | [] => []
  | c :: cs => if jsonWs c then skipWs cs else c :: cs

/-- Numeric value of a hex digit, if it is one. -/
def hexVal (c : Char) : Option Nat :=
  if c.isDigit then some (c.toNat - 48)
  else if 97 ≤ c.toNat && c.toNat ≤ 102 then some (c.toNat - 87)
  else if 65 ≤ c.toNat && c.toNat ≤ 70 then some (c.toNat - 55)
  else none

/-- JSON string body parser (after the opening quote), fuel-bounded. -/
def parseJString : Nat → List Char → Option (String × List Char)
  | 0, _ => none
  | Nat.succ fuel, cs =>
    match cs with
    | [] => none
    | '"' :: rest => some ("", rest)
    | '\\' :: e :: rest =>
      let esc : Option (Char × List Char) :=
        if e = '"' then some ('"', rest)
        else if e = '\\' then some ('\\', rest)
        else if e = '/' then some ('/', rest)
        else if e = 'b' then some (Char.ofNat 8, rest)
        else if e = 'f' then some (Char.ofNat 12, rest)
        else if e = 'n' then some ('\n', rest)
        else if e = 'r' then some ('\r', rest)
        else if e = 't' then some ('\t', rest)
        else if e = 'u' then
          match rest with
          | h1 :: h2 :: h3 :: h4 :: rest2 =>
            match hexVal h1, hexVal h2, hexVal h3, hexVal h4 with
            | some a, some b, some c, some d =>
              some (Char.ofNat (((a * 16 + b) * 16 + c) * 16 + d), rest2)
            | _, _, _, _ => none
          | _ => none
        else none
      match esc with
      | none => none
      | some (c, rest2) =>
        (parseJString fuel rest2).map (fun p => (⟨c :: p.1.data⟩, p.2))
    | c :: rest => (parseJString fuel rest).map (fun p => (⟨c :: p.1.data⟩, p.2))

/-- Value of a list of decimal digits. -/
def digitsVal (cs : List Char) : Nat :=
  cs.foldl (fun acc c => acc * 10 + (c.toNat - 48)) 0

/-- JSON number parser (integer part, optional fraction, optional exponent). -/
def parseJNumber (cs : List Char) : Option (JValue × List Char) :=
  let signed : Bool × List Char :=
    match cs with
    | '-' :: t => (true, t)
    | _ => (false, cs)
  let ints := signed.2.takeWhile (fun c => c.isDigit)
  let cs2 := signed.2.dropWhile (fun c => c.isDigit)
  if ints.isEmpty then none
  else
    let withFrac : Option (ℚ × List Char) :=
      match cs2 with
      | '.' :: t =>
        let fr := t.takeWhile (fun c => c.isDigit)
        if fr.isEmpty then none
        else some ((digitsVal ints : ℚ) + (digitsVal fr : ℚ) / (10 : ℚ) ^ fr.length,
          t.dropWhile (fun c => c.isDigit))
      | _ => some ((digitsVal ints : ℚ), cs2)
    match withFrac with
    | none => none
    | some (mag, cs3) =>
      let withExp : Option (ℚ × List Char) :=
        match cs3 with
        | e :: t =>
          if e = 'e' || e = 'E' then
            let esigned : Bool × List Char :=
              match t with
              | '-' :: t2 => (true, t2)
              | '+' :: t2 => (false, t2)
              | _ => (false, t)
            let eds := esigned.2.takeWhile (fun c => c.isDigit)
            if eds.isEmpty then none
            else if esigned.1 then
              some (mag / (10 : ℚ) ^ digitsVal eds, esigned.2.dropWhile (fun c => c.isDigit))
            else
              some (mag * (10 : ℚ) ^ digitsVal eds, esigned.2.dropWhile (fun c => c.isDigit))
          else some (mag, cs3)
        | [] => some (mag, cs3)
      match withExp with
      | none => none
      | some (v, cs4) => some (JValue.num (if signed.1 then -v else v), cs4)

mutual

/-- JSON value parser, fuel-bounded. -/
def jparseValue : Nat → List Char → Option (JValue × List Char)
  | 0, _ => none
  | Nat.succ fuel, cs =>
    match skipWs cs with
    | [] => none
    | c :: rest =>
      if c = obrace then
        match skipWs rest with
        | [] => none
        | d :: rest2 =>
          if d = cbrace then some (JValue.obj [], rest2)
          else jparseMembers fuel (d :: rest2) []
      else if c = '[' then
        match skipWs rest with
        | [] => none
        | d :: rest2 =>
          if d = ']' then some (JValue.arr [], rest2)
          else jparseElems fuel (d :: rest2) []
      else if c = '"' then
        (parseJString (rest.length + 1) rest).map (fun p => (JValue.str p.1, p.2))
      else if c = 't' then
        if rest.take 3 = ['r', 'u', 'e'] then some (JValue.bool true, rest.drop 3) else none
      else if c = 'f' then
        if rest.take 4 = ['a', 'l', 's', 'e'] then some (JValue.bool false, rest.drop 4) else none
      else if c = 'n' then
        if rest.take 3 = ['u', 'l', 'l'] then some (JValue.null, rest.drop 3) else none
      else parseJNumber (c :: rest)

/-- JSON object member list parser (after at least one member is known to
follow), fuel-bounded. -/
def jparseMembers : Nat → List Char → List (String × JValue) →
    Option (JValue × List Char)
  | 0, _, _ => none
  | Nat.succ fuel, cs, acc =>
    match skipWs cs with
    | '"' :: rest =>
      match parseJString (rest.length + 1) rest with
      | none => none
      | some (key, rest2) =>
        match skipWs rest2 with
        | ':' :: rest3 =>
          match jparseValue fuel rest3 with
          | none => none
          | some (v, rest4) =>
            match skipWs rest4 with
            | [] => none
            | d :: rest5 =>
              if d = ',' then jparseMembers fuel rest5 (acc ++ [(key, v)])
              else if d = cbrace then some (JValue.obj (acc ++ [(key, v)]), rest5)
              else none
        | _ => none
    | _ => none

/-- JSON array element list parser (after at least one element is known to
follow), fuel-bounded. -/
def jparseElems : Nat → List Char → List JValue → Option (JValue × List Char)
  | 0, _, _ => none
  | Nat.succ fuel, cs, acc =>
    match jparseValue fuel cs with
    | none => none
    | some (v, rest) =>
      match skipWs rest with
      | ',' :: rest2 => jparseElems fuel rest2 (acc ++ [v])
      | ']' :: rest2 => some (JValue.arr (acc ++ [v]), rest2)
      | _ => none

end

/-- Python `json.loads`: parse a complete JSON document (leading and trailing
whitespace allowed, nothing else may remain). -/
def json_loads (s : String) : Option JValue :=
  match jparseValue (2 * s.data.length + 2) s.data with
  | some (v, rest) => if (skipWs rest).isEmpty then some v else none
  | none => none

/-- Markdown code-fence removal, the first step of `parse_json_response`. -/
def stripCodeFences (text : String) : String :=
  if strContainsSub text "```" then
    strReplace (strReplace text "```json" "") "```" ""
  else text

/-- The slicing step of `parse_json_response`: from the first opening brace
to the last closing brace, left unchanged when either is absent. -/
def sliceToBraces (text : String) : String :=
  match text.data.findIdx? (fun c => c = obrace), lastIdxOf text.data cbrace with
  | some f, some l => ⟨(text.data.drop f).take (l + 1 - f)⟩
  | _, _ => text

/-- `extraction.parse_json_response`: strip code fences, slice to the brace
span, parse as JSON; a parse failure raises `ValueError`. -/
def parse_json_response (text : String) : Except String JValue :=
  match json_loads (sliceToBraces (stripCodeFences text)) with
  | some v => Except.ok v
  | none => Except.error "Failed to parse JSON response"

/-- When either brace is absent, the slicing step leaves the text unchanged. -/
theorem sliceToBraces_of_none (text : String)
    (h : text.data.findIdx? (fun c => c = obrace) = none
      ∨ lastIdxOf text.data cbrace = none) :
    sliceToBraces text = text := by
  unfold sliceToBraces
  rcases h with h | h
  · rw [h]
  · rw [h]
    rcases text.data.findIdx? (fun c => c = obrace) with _ | f <;> rfl

/-- C3 counterexample: the input `42` contains no brace pair — "no object at
all" — yet `parse_json_response` succeeds, returning the JSON number 42
instead of raising the malformed-response error: with no brace pair the
unsliced text is handed to the JSON parser whole, and a bare JSON scalar
parses. -/
theorem parse_json_response_braceless_scalar_ok :
    parse_json_response "42" = Except.ok (JValue.num 42) := by rfl

/-- C3 (amended): `parse_json_response` applies, in order, code-fence
removal, slicing from the first opening brace to the last closing brace, and
JSON parsing; it recovers the embedded object from bare, fenced and
prose-wrapped inputs, and it fails with the malformed-response error when
parsing fails after slicing. When the input contains no brace pair the text
is NOT rejected outright: it is passed whole to the JSON parser, so it fails
exactly when that whole text is not valid JSON (prose fails, but a bare
JSON scalar such as `42` succeeds). -/
theorem parse_json_response_spec :
    parse_json_response "\x7b\"vendorName\": \"Test\", \"totalAmount\": 100\x7d"
        = Except.ok (JValue.obj
            [("vendorName", JValue.str "Test"), ("totalAmount", JValue.num 100)])
      ∧ parse_json_response "```json\n\x7b\"vendorName\": \"Test\", \"totalAmount\": 100\x7d\n```"
        = Except.ok (JValue.obj
            [("vendorName", JValue.str "Test"), ("totalAmount", JValue.num 100)])
      ∧ parse_json_response
            "Some text before \x7b\"vendorName\": \"Test\", \"totalAmount\": 100\x7d and after"
        = Except.ok (JValue.obj
            [("vendorName", JValue.str "Test"), ("totalAmount", JValue.num 100)])
      ∧ parse_json_response "\x7bnot valid json\x7d"
        = Except.error "Failed to parse JSON response"
      ∧ parse_json_response "no json object here"
        = Except.error "Failed to parse JSON response"
      ∧ ∀ text : String,
          ((stripCodeFences text).data.findIdx? (fun c => c = obrace) = none
            ∨ lastIdxOf (stripCodeFences text).data cbrace = none) →
          parse_json_response text =
            match json_loads (stripCodeFences text) with
            | some v => Except.ok v
            | none => Except.error "Failed to parse JSON response" := by
  refine ⟨by rfl, by rfl, by rfl, by rfl, by rfl, ?_⟩
  intro text h
  unfold parse_json_response
  rw [sliceToBraces_of_none _ h]

/-!
## String ordering — DuckDB binary collation for `ORDER BY` on VARCHAR
-/

/-- Strict lexicographic comparison of character lists by code point: the
binary collation DuckDB applies when ordering VARCHAR columns. -/
def charListLtb : List Char → List Char → Bool
  | [], [] => false
  | [], _ :: _ => true
  | _ :: _, [] => false
  | a :: as, b :: bs => if a = b then charListLtb as bs else decide (a < b)

/-- Non-strict string comparison, `s <= t` under binary collation. -/
def strLeb (s t : String) : Bool := !charListLtb t.data s.data

theorem charListLtb_irrefl : ∀ l : List Char, charListLtb l l = false
  | [] => rfl
  | a :: as => by simp [charListLtb, charListLtb_irrefl as]

theorem charListLtb_asymm : ∀ l m : List Char,
    charListLtb l m = true → charListLtb m l = false
  | [], [], h => by simp [charListLtb] at h
  | [], _ :: _, _ => rfl
  | _ :: _, [], h => by simp [charListLtb] at h
  | a :: as, b :: bs, h => by
    by_cases hab : a = b
    · subst hab
      simp only [charListLtb, if_pos rfl] at h ⊢
      exact charListLtb_asymm as bs h
    · have hba : b ≠ a := fun he => hab he.symm
      simp only [charListLtb, if_neg hab, decide_eq_true_eq] at h
      simp only [charListLtb, if_neg hba, decide_eq_false_iff_not]
      exact lt_asymm h

/-- A strict comparison implies the non-strict one. -/
theorem strLeb_of_ltb {s t : String} (h : charListLtb s.data t.data = true) :
    strLeb s t = true := by
  unfold strLeb
  rw [charListLtb_asymm _ _ h]
  rfl

/-- Comparison ignores a common leading run of characters. -/
theorem charListLtb_append_same : ∀ p a b : List Char,
    charListLtb (p ++ a) (p ++ b) = charListLtb a b
  | [], _, _ => rfl
  | c :: p, a, b => by
    simp only [List.cons_append, charListLtb, if_pos rfl]
    exact charListLtb_append_same p a b

/-!
## Persistence — `database.py`

The two DuckDB tables are modelled as lists of typed rows, inserts as list
appends (in statement order), `CURRENT_TIMESTAMP` as a logical clock that
the store increments per insert, and query results as list operations. SQL
`NULL` is `Option.none`; parameter binding of a Python value into a typed
column is made explicit by the `bind*` helpers below. `DATE` values are kept
as their ISO `YYYY-MM-DD` strings, whose binary-collation order coincides
with date order.
-/

/-- A row of the `extractions` table. -/
structure ExtractionRow where
  id : String
  doc_hash : String
  filename : String
  document_type : Option String
  vendor_name : Option String
  total_amount : Option ℚ
  currency : Option String
  date : Option String
  due_date : Option String
  tax_amount : Option ℚ
  invoice_number : Option String
  vendor_address : Option String
  summary : Option String
  raw_json : List (String × JValue)
  confidence : ℚ
  created_at : Nat

/-- A row of the `line_items` table. -/
structure LineItemRow where
  id : String
  extraction_id : String
  description : Option String
  quantity : Option ℚ
  unit_price : Option ℚ
  total : Option ℚ
  sku : Option String

/-- The database state: both tables plus the timestamp clock. -/
structure Db where
  extractions : List ExtractionRow
  line_items : List LineItemRow
  clock : Nat

/-- The empty database produced by `init_database`. -/
def emptyDb : Db := ⟨[], [], 0⟩

/-- Binding a Python value into a VARCHAR column: `None` becomes NULL,
strings are stored as they are; a non-string scalar would be coerced to its
text form by the driver — only the string and NULL cases occur in this
development. -/
def bindStr : Option JValue → Option String
  | some (JValue.str s) => some s
  | some JValue.null => none
  | none => none
  | some _ => none

/-- Binding a Python value into a numeric column: `None` becomes NULL;
non-numeric values are out of scope (the driver would reject them). -/
def bindNum : Option JValue → Option ℚ
  | some (JValue.num q) => some q
  | _ => none

/-- `extracted_data.get("lineItems", [])` as a list of item dicts; entries
that are not JSON objects are out of scope and read as empty dicts. -/
def pyLineItems (extracted_data : List (String × JValue)) :
    List (List (String × JValue)) :=
  match dictGet extracted_data "lineItems" with
  | some (JValue.arr l) =>
    l.map (fun v => match v with
      | JValue.obj fields => fields
      | _ => [])
  | _ => []

/-- The derived line-item identifier: `f"{extraction_id}_line_{idx}"`. -/
def lineItemId (extraction_id : String) (idx : Nat) : String :=
  extraction_id ++ "_line_" ++ toString idx

/-- The `line_items` rows inserted by `save_extraction`, in loop order. -/
def lineRowsFor (extraction_id : String)
    (items : List (List (String × JValue))) : List LineItemRow :=
  items.enum.map (fun p =>
    { id := lineItemId extraction_id p.1
      extraction_id := extraction_id
      description := bindStr (some (dictGetD p.2 "description" (JValue.str "")))
      quantity := bindNum (some (dictGetD p.2 "quantity" (JValue.num 0)))
      unit_price := bindNum (some (dictGetD p.2 "unitPrice" (JValue.num 0)))
      total := bindNum (some (dictGetD p.2 "total" (JValue.num 0)))
      sku := bindStr (dictGet p.2 "sku") })

/-- `database.save_extraction`: insert the header row, then one row per line
item with the derived identifier, in input order. Returns the new state and
the extraction id. -/
def save_extraction (db : Db) (extraction_id doc_hash filename : String)
    (extracted_data : List (String × JValue)) (confidence : ℚ) : Db × String :=
  let row : ExtractionRow :=
    { id := extraction_id
      doc_hash := doc_hash
      filename := filename
      document_type := bindStr (some (dictGetD extracted_data "documentType"
        (JValue.str "Unknown")))
      vendor_name := bindStr (some (dictGetD extracted_data "vendorName"
        (JValue.str "")))
      total_amount := bindNum (some (dictGetD extracted_data "totalAmount"
        (JValue.num 0)))
      currency := bindStr (some (dictGetD extracted_data "currency"
        (JValue.str "USD")))
      date := bindStr (dictGet extracted_data "date")
      due_date := bindStr (dictGet extracted_data "dueDate")
      tax_amount := bindNum (some (dictGetD extracted_data "taxAmount"
        (JValue.num 0)))
      invoice_number := bindStr (some (dictGetD extracted_data "invoiceNumber"
        (JValue.str "")))
      vendor_address := bindStr (dictGet extracted_data "vendorAddress")
      summary := bindStr (dictGet extracted_data "summary")
      raw_json := extracted_data
      confidence := confidence
      created_at := db.clock }
  let items := pyLineItems extracted_data
  ({ extractions := db.extractions ++ [row]
     line_items := db.line_items ++ lineRowsFor extraction_id items
     clock := db.clock + 1 }, extraction_id)

/-- A line item as `get_extraction` reconstructs it: numeric fields coerced
back through `float(x) if x else 0.0`. -/
structure FullItem where
  description : Option String
  quantity : ℚ
  unitPrice : ℚ
  total : ℚ
  sku : Option String

/-- A full extraction as `get_extraction` reconstructs it. -/
structure FullExtraction where
  id : String
  documentType : Option String
  vendorName : Option String
  totalAmount : ℚ
  currency : Option String
  date : Option String
  dueDate : Option String
  taxAmount : ℚ
  invoiceNumber : Option String
  vendorAddress : Option String
  summary : Option String
  lineItems : List FullItem

/-- `float(x) if x else 0.0` applied to a nullable numeric column. -/
def numOrZero : Option ℚ → ℚ
  | some q => if q ≠ 0 then q else 0
  | none => 0

/-- The projection of one stored line-item row into the reconstructed dict. -/
def rowToFullItem (r : LineItemRow) : FullItem :=
  { description := r.description
    quantity := numOrZero r.quantity
    unitPrice := numOrZero r.unit_price
    total := numOrZero r.total
    sku := r.sku }

/-- `database.get_extraction`: look up the header row, fetch its line items
ordered by their identifier (ascending, binary collation), and rebuild the
response dict. -/
def get_extraction (db : Db) (extraction_id : String) : Option FullExtraction :=
  match db.extractions.find? (fun r => r.id = extraction_id) with
  | none => none
  | some result =>
    let items := (db.line_items.filter
        (fun li => li.extraction_id = extraction_id)).insertionSort
      (fun a b => strLeb a.id b.id = true)
    some
      { id := result.id
        documentType := result.document_type
        vendorName := result.vendor_name
        totalAmount := numOrZero result.total_amount
        currency := result.currency
        date := result.date
        dueDate := result.due_date
        taxAmount := numOrZero result.tax_amount
        invoiceNumber := result.invoice_number
        vendorAddress := result.vendor_address
        summary := result.summary
        lineItems := items.map rowToFullItem }

/-- `database.check_duplicate`: look up a row by content fingerprint and
return the full existing extraction when one exists. -/
def check_duplicate (db : Db) (doc_hash : String) : Option FullExtraction :=
  match db.extractions.find? (fun r => r.doc_hash = doc_hash) with
  | some r => get_extraction db r.id
  | none => none

/-- Every row produced by the save loop carries the owning extraction id. -/
theorem lineRowsFor_extraction_id (eid : String)
    (items : List (List (String × JValue))) :
    ∀ li ∈ lineRowsFor eid items, li.extraction_id = eid := by
  intro li hli
  rcases List.mem_map.mp hli with ⟨p, _, hp⟩
  rw [← hp]

/-- The id of the `i`-th row produced by the save loop. -/
theorem lineRowsFor_id (eid : String) (items : List (List (String × JValue)))
    (i : Nat) (h : i < (lineRowsFor eid items).length) :
    ((lineRowsFor eid items)[i]).id = lineItemId eid i := by
  simp [lineRowsFor, List.getElem_map, List.getElem_enum]

/-- Single-digit decimal numerals compare in numeric order under binary
collation. -/
theorem digit_repr_ltb (i j : Nat) (hij : i < j) (hj : j ≤ 9) :
    charListLtb (toString i).data (toString j).data = true := by
  interval_cases j <;> interval_cases i <;> decide

/-- For at most ten items, the derived identifiers are strictly increasing in
the positional index, so the rows emerge from the identifier sort unchanged. -/
theorem lineRowsFor_sorted (eid : String) (items : List (List (String × JValue)))
    (hlen : items.length ≤ 10) :
    List.Sorted (fun a b : LineItemRow => strLeb a.id b.id = true)
      (lineRowsFor eid items) := by
  refine List.pairwise_iff_getElem.mpr ?_
  intro i j hi hj hij
  have hlr : (lineRowsFor eid items).length = items.length := by
    simp [lineRowsFor]
  rw [lineRowsFor_id eid items i hi, lineRowsFor_id eid items j hj]
  apply strLeb_of_ltb
  unfold lineItemId
  rw [String.data_append, String.data_append, String.data_append,
    String.data_append, List.append_assoc, List.append_assoc,
    charListLtb_append_same, charListLtb_append_same]
  exact digit_repr_ltb i j hij (by omega)

/-- `find?` skips a front segment containing no match. -/
theorem find?_append_of_none {α : Type} (l1 l2 : List α) (p : α → Bool)
    (h : l1.find? p = none) : (l1 ++ l2).find? p = l2.find? p := by
  rw [List.find?_append, h, Option.none_or]

/-- C5 (amended): saving a header together with at most ten line items and
reading it back returns the line items in input order — each row id is the
extraction id concatenated with the positional index, retrieval orders by
that id under binary collation, and for single-digit indices that order is
the input order. (With eleven or more items the identifier sort interleaves
`_line_10` before `_line_2`, see the counterexample.) -/
theorem save_get_preserves_item_order (db : Db)
    (eid dh fn : String) (data : List (String × JValue)) (conf : ℚ)
    (hfresh_e : ∀ r ∈ db.extractions, r.id ≠ eid)
    (hfresh_li : ∀ li ∈ db.line_items, li.extraction_id ≠ eid)
    (hlen : (pyLineItems data).length ≤ 10) :
    ∃ full, get_extraction (save_extraction db eid dh fn data conf).1 eid = some full
      ∧ full.lineItems = (lineRowsFor eid (pyLineItems data)).map rowToFullItem := by
  unfold save_extraction get_extraction
  rw [find?_append_of_none _ _ _ (List.find?_eq_none.mpr
    (fun r hr => by simpa using hfresh_e r hr))]
  rw [List.find?_cons_of_pos _ (by simp)]
  rw [List.filter_append,
    List.filter_eq_nil_iff.mpr (fun li hli => by simpa using hfresh_li li hli),
    List.nil_append,
    List.filter_eq_self.mpr (fun li hli => by
      simpa using lineRowsFor_extraction_id eid (pyLineItems data) li hli),
    List.Sorted.insertionSort_eq (lineRowsFor_sorted eid (pyLineItems data) hlen)]
  exact ⟨_, rfl, rfl⟩

/-- Witness for the amended C5 at a concrete save of two line items into the
empty database: retrieval returns them in input order. -/
theorem save_get_preserves_item_order_witness :
    ∃ full,
      get_extraction (save_extraction emptyDb "E" "h" "f.pdf"
        [("lineItems", JValue.arr
          [JValue.obj [("description", JValue.str "first")],
           JValue.obj [("description", JValue.str "second")]])] 1).1 "E" = some full
      ∧ full.lineItems = (lineRowsFor "E" (pyLineItems
          [("lineItems", JValue.arr
            [JValue.obj [("description", JValue.str "first")],
             JValue.obj [("description", JValue.str "second")]])])).map rowToFullItem :=
  save_get_preserves_item_order emptyDb "E" "h" "f.pdf"
    [("lineItems", JValue.arr
      [JValue.obj [("description", JValue.str "first")],
       JValue.obj [("description", JValue.str "second")]])] 1
    (by intro r hr; cases hr) (by intro li hli; cases hli) (by decide)

/-- The record with eleven line items used to refute C5 as stated. -/
def elevenItemData : List (String × JValue) :=
  [("lineItems", JValue.arr ((List.range 11).map (fun i =>
    JValue.obj [("description", JValue.str ("item" ++ toString i))])))]

/-- C5 counterexample: with eleven line items, the identifiers sort as
`_line_0, _line_1, _line_10, _line_2, …` under the binary collation used by
`ORDER BY id`, so retrieval does NOT return the items in input order: the
eleventh item surfaces in third position. -/
theorem save_get_item_order_counterexample :
    ((get_extraction (save_extraction emptyDb "E" "h" "f.pdf"
        elevenItemData 1).1 "E").map
      (fun full => full.lineItems.map (fun it => it.description)))
      = some [some "item0", some "item1", some "item10", some "item2",
          some "item3", some "item4", some "item5", some "item6",
          some "item7", some "item8", some "item9"]
    ∧ (some [some "item0", some "item1", some "item10", some "item2",
          some "item3", some "item4", some "item5", some "item6",
          some "item7", some "item8", some "item9"]
        : Option (List (Option String)))
      ≠ some [some "item0", some "item1", some "item2", some "item3",
          some "item4", some "item5", some "item6", some "item7",
          some "item8", some "item9", some "item10"] := by
  exact ⟨by rfl, by decide⟩

/-!
## Query engine — `database.list_extractions`

```python
if date_from: conditions.append("date >= ?")
if date_to:   conditions.append("date <= ?")
if vendor:    conditions.append("vendor_name ILIKE ?")  # %vendor%
if doc_type:  conditions.append("document_type = ?")
...
SELECT COUNT(*) FROM extractions WHERE <where>
SELECT ... FROM extractions WHERE <where> ORDER BY created_at DESC LIMIT ? OFFSET ?
```

A filter value of `None` (or any falsy value such as the empty string) adds
no condition, hence `Option String` per filter. SQL comparisons against a
NULL column are not true, so rows with a NULL column fail the corresponding
condition.
-/

/-- The optional filters of the listing endpoint. -/
structure Filters where
  date_from : Option String
  date_to : Option String
  vendor : Option String
  doc_type : Option String

/-- SQL `lhs >= rhs` on dates held as ISO strings (binary collation equals
date order); NULL fails. -/
def dateGeb : Option String → String → Bool
  | none, _ => false
  | some d, bound => strLeb bound d

/-- SQL `lhs <= rhs` on dates held as ISO strings; NULL fails. -/
def dateLeb : Option String → String → Bool
  | none, _ => false
  | some d, bound => strLeb d bound

/-- SQL `vendor_name ILIKE ?` with pattern `%vendor%`: case-insensitive
substring match; NULL fails. -/
def vendorLikeb : Option String → String → Bool
  | none, _ => false
  | some name, vendor => strContainsSub (pyLower name) (pyLower vendor)

/-- SQL `document_type = ?`; NULL fails. -/
def docTypeEqb : Option String → String → Bool
  | none, _ => false
  | some t, want => t = want

/-- The conjunctive WHERE clause of `list_extractions`. -/
def matchesFilters (f : Filters) (r : ExtractionRow) : Bool :=
  (match f.date_from with
    | none => true
    | some d => dateGeb r.date d)
  && (match f.date_to with
    | none => true
    | some d => dateLeb r.date d)
  && (match f.vendor with
    | none => true
    | some v => vendorLikeb r.vendor_name v)
  && (match f.doc_type with
    | none => true
    | some t => docTypeEqb r.document_type t)

/-- The full filtered set (the COUNT(*) query counts exactly this list). -/
def filteredRows (db : Db) (f : Filters) : List ExtractionRow :=
  db.extractions.filter (matchesFilters f)

/-- The rows the paginated SELECT returns: the filtered set ordered by
creation time descending, then OFFSET dropped and LIMIT taken. -/
def list_rows (db : Db) (f : Filters) (offset limit : Nat) : List ExtractionRow :=
  (((filteredRows db f).insertionSort
    (fun a b : ExtractionRow => b.created_at ≤ a.created_at)).drop offset).take limit

/-- The summary dict built for each returned row. -/
structure ExtractionSummary where
  id : String
  filename : String
  documentType : Option String
  vendorName : Option String
  totalAmount : ℚ
  currency : Option String
  date : Option String
  createdAt : Nat

/-- The row projection of `list_extractions`. -/
def summarize (r : ExtractionRow) : ExtractionSummary :=
  { id := r.id
    filename := r.filename
    documentType := r.document_type
    vendorName := r.vendor_name
    totalAmount := numOrZero r.total_amount
    currency := r.currency
    date := r.date
    createdAt := r.created_at }

/-- `database.list_extractions`: the page of summaries and the total count of
the full filtered set. -/
def list_extractions (db : Db) (f : Filters) (offset limit : Nat) :
    List ExtractionSummary × Nat :=
  ((list_rows db f offset limit).map summarize, (filteredRows db f).length)

/-- C7: for every fixed filter set the returned total equals the size of the
full filtered set, it is identical across all pagination windows, every page
is a window of the same descending-by-creation-time ordering, and the page
rows all satisfy the conjunctive filter. -/
theorem list_extractions_total_and_order (db : Db) (f : Filters)
    (offset limit offset' limit' : Nat) :
    (list_extractions db f offset limit).2 = (filteredRows db f).length
      ∧ (list_extractions db f offset limit).2 = (list_extractions db f offset' limit').2
      ∧ (list_rows db f offset limit).Pairwise
          (fun a b => b.created_at ≤ a.created_at)
      ∧ ∀ r ∈ list_rows db f offset limit, matchesFilters f r = true := by
  refine ⟨rfl, rfl, ?_, ?_⟩
  · have hs : List.Sorted (fun a b : ExtractionRow => b.created_at ≤ a.created_at)
        ((filteredRows db f).insertionSort
          (fun a b : ExtractionRow => b.created_at ≤ a.created_at)) := by
      haveI : IsTotal ExtractionRow (fun a b => b.created_at ≤ a.created_at) :=
        ⟨fun a b => Nat.le_total b.created_at a.created_at⟩
      haveI : IsTrans ExtractionRow (fun a b => b.created_at ≤ a.created_at) :=
        ⟨fun _ _ _ hab hbc => Nat.le_trans hbc hab⟩
      exact List.sorted_insertionSort _ _
    exact ((hs.drop).take)
  · intro r hr
    have hmem : r ∈ (filteredRows db f).insertionSort
        (fun a b : ExtractionRow => b.created_at ≤ a.created_at) :=
      List.mem_of_mem_drop (List.mem_of_mem_take hr)
    have : r ∈ filteredRows db f :=
      (List.perm_insertionSort _ _).subset hmem
    exact (List.mem_filter.mp this).2

/-!
## Exporter — `database.export_to_csv`

```python
SELECT e.id, e.filename, ..., l.description, ..., l.sku
FROM extractions e LEFT JOIN line_items l ON e.id = l.extraction_id
[WHERE e.id IN (...)]
ORDER BY e.id, l.id
...
csv_lines.append("id,filename,...")
for row in result.fetchall():
    csv_line = ",".join([str(val).replace(",", ";") if val is not None else "" for val in row])
```

The left join is modelled per extraction row (exact, since `id` is the
primary key): an extraction with no line items contributes one row whose
item columns are NULL; one with items contributes one row per item, ordered
by the item id. `str(...)` of a numeric value is abstracted by `toString`
(its exact decimal formatting affects no claim — every cell goes through the
comma substitution regardless).
-/

/-- `str(val).replace(",", ";")` — the naive comma escaping. -/
def csvEscape (s : String) : String := strReplace s "," ";"

/-- Python `",".join(cells)`. -/
def commaJoin : List String → String
  | [] => ""
  | [c] => c
  | c :: rest => c ++ "," ++ commaJoin rest

/-- Python `"\n".join(lines)`. -/
def nlJoin : List String → String
  | [] => ""
  | [c] => c
  | c :: rest => c ++ "\n" ++ nlJoin rest

/-- A nullable VARCHAR column as a CSV cell. -/
def cellStr : Option String → String
  | none => ""
  | some s => csvEscape s

/-- A nullable numeric column as a CSV cell. -/
def cellNum : Option ℚ → String
  | none => ""
  | some q => csvEscape (toString q)

/-- The ten extraction columns of one joined row, in SELECT order. -/
def extractionCells (e : ExtractionRow) : List String :=
  [csvEscape e.id, csvEscape e.filename, cellStr e.document_type,
   cellStr e.vendor_name, cellNum e.total_amount, cellStr e.currency,
   cellStr e.date, cellStr e.invoice_number, cellNum e.tax_amount,
   cellStr e.summary]

/-- The five line-item columns of one joined row; all NULL when the left
join found no item. -/
def itemCells : Option LineItemRow → List String
  | none => ["", "", "", "", ""]
  | some l => [cellStr l.description, cellNum l.quantity, cellNum l.unit_price,
      cellNum l.total, cellStr l.sku]

/-- The line items owned by `e`, in the `ORDER BY l.id` order. -/
def itemsOf (db : Db) (e : ExtractionRow) : List LineItemRow :=
  (db.line_items.filter (fun li => li.extraction_id = e.id)).insertionSort
    (fun a b => strLeb a.id b.id = true)

/-- The CSV lines contributed by one extraction: one per line item, or a
single line with empty item cells when it owns none (LEFT JOIN). -/
def joinRowsFor (db : Db) (e : ExtractionRow) : List String :=
  match itemsOf db e with
  | [] => [commaJoin (extractionCells e ++ itemCells none)]
  | items => items.map (fun l => commaJoin (extractionCells e ++ itemCells (some l)))

/-- The CSV lines of a list of extraction rows, in order. -/
def csvRowsFor (db : Db) : List ExtractionRow → List String
  | [] => []
  | e :: rest => joinRowsFor db e ++ csvRowsFor db rest

/-- The fixed header row. -/
def csvHeader : String :=
  "id,filename,document_type,vendor_name,total_amount,currency,date,invoice_number,tax_amount,summary,line_description,line_quantity,line_unit_price,line_total,line_sku"

/-- The extraction rows the export selects: all of them, or those whose id
is listed (a present-but-empty id list is falsy in Python and selects all). -/
def selectedRows (db : Db) (extraction_ids : Option (List String)) :
    List ExtractionRow :=
  match extraction_ids with
  | some ids =>
    if ids.isEmpty then db.extractions
    else db.extractions.filter (fun e => ids.contains e.id)
  | none => db.extractions

/-- The selected rows in `ORDER BY e.id` order. -/
def selectedSorted (db : Db) (extraction_ids : Option (List String)) :
    List ExtractionRow :=
  (selectedRows db extraction_ids).insertionSort (fun a b => strLeb a.id b.id = true)

/-- `database.export_to_csv` as its list of lines: header first, then the
joined rows. -/
def export_lines (db : Db) (extraction_ids : Option (List String)) : List String :=
  csvHeader :: csvRowsFor db (selectedSorted db extraction_ids)

/-- `database.export_to_csv`: the lines joined by newlines (UTF-8 encoding
of the result is the identity on this model). -/
def export_to_csv (db : Db) (extraction_ids : Option (List String)) : String :=
  nlJoin (export_lines db extraction_ids)

theorem replaceSub_comma_count : ∀ (fuel : Nat) (cs : List Char),
    cs.length ≤ fuel → (replaceSub [','] [';'] fuel cs).count ',' = 0
  | 0, cs, h => by
    have : cs = [] := List.eq_nil_of_length_eq_zero (Nat.le_zero.mp h)
    subst this
    rfl
  | Nat.succ fuel, [], _ => by rfl
  | Nat.succ fuel, c :: cs, h => by
    have hlen : cs.length ≤ fuel := by simpa using h
    by_cases hc : c = ','
    · subst hc
      have hpre : [','].isPrefixOf (',' :: cs) = true := by
        simp [List.isPrefixOf]
      simp only [replaceSub, hpre, if_pos]
      rw [List.count_append]
      simp [replaceSub_comma_count fuel cs hlen, List.count_cons]
    · have hpre : [','].isPrefixOf (c :: cs) = false := by
        simp only [List.isPrefixOf, Bool.and_eq_false_iff, beq_eq_false_iff_ne]
        exact Or.inl (fun he => hc he.symm)
      simp only [replaceSub, hpre, Bool.false_eq_true, if_neg, not_false_eq_true]
      rw [List.count_cons, replaceSub_comma_count fuel cs hlen,
        if_neg (by simpa using hc)]

/-- The escaped form of any value contains no comma. -/
theorem csvEscape_comma_free (s : String) : (csvEscape s).data.count ',' = 0 :=
  replaceSub_comma_count s.data.length s.data (Nat.le_refl _)

theorem cellStr_comma_free (v : Option String) : (cellStr v).data.count ',' = 0 := by
  cases v
  · rfl
  · exact csvEscape_comma_free _

theorem cellNum_comma_free (v : Option ℚ) : (cellNum v).data.count ',' = 0 := by
  cases v
  · rfl
  · exact csvEscape_comma_free _

/-- Every cell of a joined row is comma-free. -/
theorem rowCells_comma_free (e : ExtractionRow) (x : Option LineItemRow) :
    ∀ cell ∈ extractionCells e ++ itemCells x, cell.data.count ',' = 0 := by
  intro cell hcell
  rcases List.mem_append.mp hcell with h | h
  · simp only [extractionCells, List.mem_cons, List.mem_singleton] at h
    rcases h with rfl | rfl | rfl | rfl | rfl | rfl | rfl | rfl | rfl | rfl | h
    · exact csvEscape_comma_free _
    · exact csvEscape_comma_free _
    · exact cellStr_comma_free _
    · exact cellStr_comma_free _
    · exact cellNum_comma_free _
    · exact cellStr_comma_free _
    · exact cellStr_comma_free _
    · exact cellStr_comma_free _
    · exact cellNum_comma_free _
    · exact cellStr_comma_free _
    · cases h
  · cases x with
    | none =>
      simp only [itemCells, List.mem_cons, List.mem_singleton] at h
      rcases h with rfl | rfl | rfl | rfl | rfl | h
      · rfl
      · rfl
      · rfl
      · rfl
      · rfl
      · cases h
    | some l =>
      simp only [itemCells, List.mem_cons, List.mem_singleton] at h
      rcases h with rfl | rfl | rfl | rfl | rfl | h
      · exact cellStr_comma_free _
      · exact cellNum_comma_free _
      · exact cellNum_comma_free _
      · exact cellNum_comma_free _
      · exact cellStr_comma_free _
      · cases h

/-- Joining `n` comma-free cells yields exactly `n - 1` commas. -/
theorem commaJoin_comma_count : ∀ cells : List String, cells ≠ [] →
    (∀ c ∈ cells, c.data.count ',' = 0) →
    (commaJoin cells).data.count ',' = cells.length - 1
  | [], h, _ => absurd rfl h
  | [c], _, hfree => by
    simpa using hfree c (by simp)
  | c :: c2 :: rest, _, hfree => by
    have ih := commaJoin_comma_count (c2 :: rest) (by simp)
      (fun x hx => hfree x (List.mem_cons_of_mem c hx))
    show ((c ++ "," ++ commaJoin (c2 :: rest)).data.count ',') = _
    rw [String.data_append, String.data_append, List.count_append,
      List.count_append, hfree c (by simp), ih]
    simp [Nat.add_comm]

/-- One extraction contributes one line when it has no items, else one line
per item. -/
theorem joinRowsFor_length (db : Db) (e : ExtractionRow) :
    (joinRowsFor db e).length = max 1 (itemsOf db e).length := by
  unfold joinRowsFor
  cases h : itemsOf db e with
  | nil => rfl
  | cons a l => simp

theorem csvRowsFor_length (db : Db) : ∀ L : List ExtractionRow,
    (csvRowsFor db L).length = (L.map (fun e => max 1 (itemsOf db e).length)).sum
  | [] => rfl
  | e :: rest => by
    simp [csvRowsFor, joinRowsFor_length, csvRowsFor_length db rest]

/-- Every data line is the comma join of fifteen comma-free cells, hence
carries exactly fourteen commas. -/
theorem rowLine_comma_count (e : ExtractionRow) (x : Option LineItemRow) :
    (commaJoin (extractionCells e ++ itemCells x)).data.count ',' = 14 := by
  rw [commaJoin_comma_count _ (by cases x <;> simp [extractionCells, itemCells])
    (rowCells_comma_free e x)]
  cases x <;> rfl

theorem csvRowsFor_comma_count (db : Db) : ∀ L : List ExtractionRow,
    ∀ line ∈ csvRowsFor db L, line.data.count ',' = 14
  | [], line, h => absurd h (List.not_mem_nil _)
  | e :: rest, line, h => by
    rcases List.mem_append.mp h with h | h
    · unfold joinRowsFor at h
      rcases hitems : itemsOf db e with _ | ⟨a, l⟩ <;> rw [hitems] at h
      · rcases List.mem_singleton.mp h with rfl
        exact rowLine_comma_count e none
      · rcases List.mem_map.mp h with ⟨li, _, hline⟩
        rw [← hline]
        exact rowLine_comma_count e (some li)
    · exact csvRowsFor_comma_count db rest line h

theorem mem_csvRowsFor_of_mem (db : Db) : ∀ (L : List ExtractionRow)
    (e : ExtractionRow), e ∈ L → ∀ line ∈ joinRowsFor db e, line ∈ csvRowsFor db L
  | [], _, he, _, _ => absurd he (List.not_mem_nil _)
  | a :: rest, e, he, line, hline => by
    rcases List.mem_cons.mp he with rfl | he
    · exact List.mem_append_left _ hline
    · exact List.mem_append_right _ (mem_csvRowsFor_of_mem db rest e he line hline)

set_option maxRecDepth 4000 in
/-- C9: the export emits the fixed header first, then exactly one row per
(extraction, line-item) pair of the left join — an extraction with no items
still emits one row, whose five item cells are empty — and every emitted
line contains exactly the fourteen separator commas: every comma inside a
value was replaced by a semicolon. -/
theorem export_to_csv_shape (db : Db) (extraction_ids : Option (List String)) :
    (export_lines db extraction_ids).head? = some csvHeader
      ∧ (export_lines db extraction_ids).length
        = 1 + ((selectedSorted db extraction_ids).map
            (fun e => max 1 (itemsOf db e).length)).sum
      ∧ (∀ line ∈ export_lines db extraction_ids, line.data.count ',' = 14)
      ∧ (∀ e ∈ selectedSorted db extraction_ids, itemsOf db e = [] →
          commaJoin (extractionCells e ++ ["", "", "", "", ""])
            ∈ export_lines db extraction_ids)
      ∧ export_to_csv db extraction_ids = nlJoin (export_lines db extraction_ids) := by
  refine ⟨rfl, ?_, ?_, ?_, rfl⟩
  · simp [export_lines, csvRowsFor_length, Nat.add_comm]
  · intro line h
    rcases List.mem_cons.mp h with rfl | h
    · rfl
    · exact csvRowsFor_comma_count db _ line h
  · intro e he hempty
    have hmem : commaJoin (extractionCells e ++ itemCells none) ∈ joinRowsFor db e := by
      unfold joinRowsFor
      rw [hempty]
      exact List.mem_singleton.mpr rfl
    exact List.mem_cons_of_mem _
      (mem_csvRowsFor_of_mem db _ e he _ hmem)

/-!
## Document preparation — `pdf_parser.py`

`pdf2image.convert_from_bytes`, `PIL.Image.open`, the base64 PNG encoder and
the text/table extractors are external libraries: they appear as fields of
`Externals`, with raster pages represented by opaque `Nat` handles.
-/

/-- The external imaging/parsing libraries used by `pdf_parser.py`. -/
structure Externals where
  convert_from_bytes : List Nat → Except String (List Nat)
  image_open : List Nat → Nat
  image_to_base64 : Nat → String
  extract_text : List Nat → List String
  extract_tables : List Nat → List Nat

/-- `pdf_parser.detect_file_type`: extension allow-lists first, then magic
bytes (`%PDF`, PNG, JPEG), else `unknown`. -/
def detect_file_type (file_bytes : List Nat) (filename : String) : String :=
  if strEndsWith (pyLower filename) ".pdf" then "pdf"
  else if ["png", "jpg", "jpeg", "gif", "bmp", "webp"].any
      (fun e => strEndsWith (pyLower filename) ("." ++ e)) then "image"
  else if file_bytes.take 4 = [37, 80, 68, 70] then "pdf"
  else if file_bytes.take 4 = [137, 80, 78, 71] then "image"
  else if file_bytes.take 3 = [255, 216, 255] then "image"
  else "unknown"

/-- `pdf_parser.pdf_to_images`: rasterization, wrapping conversion failures
into a `ValueError`. -/
def pdf_to_images (ext : Externals) (pdf_bytes : List Nat) :
    Except String (List Nat) :=
  match ext.convert_from_bytes pdf_bytes with
  | Except.ok images => Except.ok images
  | Except.error e => Except.error ("Failed to convert PDF to images: " ++ e)

/-- The dict `pdf_parser.parse_document` returns. -/
structure ParsedDoc where
  file_type : String
  filename : String
  strategy : String
  text : Option (List String) := none
  tables : Option (List Nat) := none
  images : Option (List String) := none
  image_count : Option Nat := none

/-- `pdf_parser.parse_document`: classify, then populate text/tables and/or
base64 page images according to the strategy. Note that the `unknown` case
raises nothing: the result simply carries no `images` key. -/
def parse_document (ext : Externals) (file_bytes : List Nat) (filename : String)
    (strategy : String) : Except String ParsedDoc :=
  let file_type := detect_file_type file_bytes filename
  let result : ParsedDoc :=
    { file_type := file_type, filename := filename, strategy := strategy }
  if file_type = "pdf" then
    let result := if strategy = "text" || strategy = "hybrid" then
        { result with
          text := some (ext.extract_text file_bytes)
          tables := some (ext.extract_tables file_bytes) }
      else result
    if strategy = "vision" || strategy = "hybrid" then
      match pdf_to_images ext file_bytes with
      | Except.error e => Except.error e
      | Except.ok images =>
        Except.ok { result with
          images := some (images.map ext.image_to_base64)
          image_count := some images.length }
    else Except.ok result
  else if file_type = "image" then
    Except.ok { result with
      images := some [ext.image_to_base64 (ext.image_open file_bytes)]
      image_count := some 1 }
  else Except.ok result

/-!
## Orchestration — `extraction.py`

The two provider network clients are an `Oracle`; each adapter records the
payload it sends to its provider as a `ProviderCall`, so "no provider was
invoked" is visible in the returned call trace.
-/

/-- The provider network clients: `ollama.chat` (fed `images[:1]`), the
`GEMINI_API_KEY` presence check, and `genai.generate_content`. -/
structure Oracle where
  ollamaChat : List String → Except String String
  geminiKey : Bool
  geminiGen : List String → Except String String

/-- A provider invocation, with the image payload sent. -/
inductive ProviderCall where
  | ollama (images : List String)
  | gemini (images : List String)

/-- The dict an adapter returns on success. -/
structure ExtractResult where
  data : List (String × JValue)
  confidence : ℚ
  provider : String

/-- `calculate_confidence` is called on the parse result; a non-dict value
raises `AttributeError` inside the adapter try block. -/
def asRecord : JValue → Except String (List (String × JValue))
  | JValue.obj fields => Except.ok fields
  | _ => Except.error "object has no attribute get"

/-- The except clause of `ollama_extract`: a message mentioning `model` or
`not found` becomes the model-missing hint, anything else is wrapped.
(Quotes around the model name are elided.) -/
def ollamaWrapError (e : String) : String :=
  if strContainsSub (pyLower e) "model" || strContainsSub (pyLower e) "not found" then
    "Ollama model qwen3-vl not found. Please run: ollama pull qwen3-vl"
  else "Ollama extraction failed: " ++ e

/-- `extraction.ollama_extract`: send only the first page image, parse the
response, score it; every exception is wrapped by `ollamaWrapError`. -/
def ollama_extract (o : Oracle) (images : List String) :
    Except String ExtractResult × List ProviderCall :=
  let calls := [ProviderCall.ollama (images.take 1)]
  match o.ollamaChat (images.take 1) with
  | Except.error e => (Except.error (ollamaWrapError e), calls)
  | Except.ok text =>
    match parse_json_response text with
    | Except.error e => (Except.error (ollamaWrapError e), calls)
    | Except.ok v =>
      match asRecord v with
      | Except.error e => (Except.error (ollamaWrapError e), calls)
      | Except.ok extracted =>
        (Except.ok {
          data := extracted
          confidence := calculate_confidence extracted
          provider := "ollama" }, calls)

/-- `extraction.gemini_extract`: fail fast when the key is absent (before
any network call), else send all images, parse, score; failures inside the
try block are wrapped as `Gemini extraction failed`. -/
def gemini_extract (o : Oracle) (images : List String) :
    Except String ExtractResult × List ProviderCall :=
  if o.geminiKey = false then (Except.error "GEMINI_API_KEY not set", [])
  else
    let calls := [ProviderCall.gemini images]
    match o.geminiGen images with
    | Except.error e => (Except.error ("Gemini extraction failed: " ++ e), calls)
    | Except.ok text =>
      if text = "" then
        (Except.error "Gemini extraction failed: No response from Gemini", calls)
      else
        match parse_json_response text with
        | Except.error e => (Except.error ("Gemini extraction failed: " ++ e), calls)
        | Except.ok v =>
          match asRecord v with
          | Except.error e => (Except.error ("Gemini extraction failed: " ++ e), calls)
          | Except.ok extracted =>
            (Except.ok {
              data := extracted
              confidence := calculate_confidence extracted
              provider := "gemini" }, calls)

/-- The terminal fallback block of `extract_document`: return the remote
result as is, or aggregate the remote failure. -/
def gemini_fallback (o : Oracle) (images : List String) :
    Except String ExtractResult × List ProviderCall :=
  match gemini_extract o images with
  | (Except.ok g, calls) => (Except.ok g, calls)
  | (Except.error e, calls) =>
    (Except.error ("All extraction methods failed. Last error: " ++ e), calls)

/-- `if not parsed.get("images")`: both an absent key and an empty list are
falsy. -/
def truthyImages : Option (List String) → Bool
  | none => false
  | some l => !l.isEmpty

/-- `extraction.extract_document`: prepare with the vision strategy, fail
when no images result, try the local adapter first (when preferred) and
return its result only if its confidence reaches 0.8, otherwise fall back to
the remote adapter. -/
def extract_document (o : Oracle) (ext : Externals) (file_bytes : List Nat)
    (filename : String) (prefer_local : Bool) :
    Except String ExtractResult × List ProviderCall :=
  match parse_document ext file_bytes filename "vision" with
  | Except.error e => (Except.error e, [])
  | Except.ok parsed =>
    if truthyImages parsed.images = false then
      (Except.error "No images extracted from document", [])
    else
      let images := parsed.images.getD []
      if prefer_local then
        match ollama_extract o images with
        | (Except.ok r, calls) =>
          if r.confidence ≥ 4/5 then (Except.ok r, calls)
          else ((gemini_fallback o images).1, calls ++ (gemini_fallback o images).2)
        | (Except.error _, calls) =>
          ((gemini_fallback o images).1, calls ++ (gemini_fallback o images).2)
      else ((gemini_fallback o images).1, (gemini_fallback o images).2)

/-!
## Endpoint — `main.extract_endpoint`
-/

/-- The HTTP failures the endpoint can raise. -/
inductive HttpError where
  | badRequest (detail : String)
  | serverError (detail : String)

/-- The JSON body of a successful extract call (`None` fields are keys the
branch does not emit). -/
structure ExtractResponse where
  id : String
  dupData : Option FullExtraction
  newData : Option (List (String × JValue))
  confidence : Option ℚ
  provider : Option String
  duplicate : Bool

/-- The endpoint content-type allow-list. -/
def allowed_types : List String :=
  ["application/pdf", "image/png", "image/jpeg", "image/jpg", "image/gif",
   "image/webp"]

/-- What one call of the extract endpoint produces: the response, the
database state afterwards, and the provider calls made. -/
structure EndpointResult where
  response : Except HttpError ExtractResponse
  db : Db
  calls : List ProviderCall

/-- `main.extract_endpoint`: validate type and size, fingerprint the bytes
(`hashFn` stands for the SHA-256 digest), resolve duplicates without
extracting, otherwise orchestrate, then save under a fresh id (`newId`
stands for `uuid4()`). -/
def extract_endpoint (o : Oracle) (ext : Externals) (hashFn : List Nat → String)
    (newId : String) (db : Db) (content_type filename : String)
    (file_bytes : List Nat) : EndpointResult :=
  if allowed_types.contains content_type = false then
    ⟨Except.error (HttpError.badRequest ("Unsupported file type: " ++ content_type)),
      db, []⟩
  else if file_bytes.length > 10 * 1024 * 1024 then
    ⟨Except.error (HttpError.badRequest "File size exceeds 10MB limit"), db, []⟩
  else
    let doc_hash := hashFn file_bytes
    match check_duplicate db doc_hash with
    | some existing =>
      ⟨Except.ok {
        id := existing.id
        dupData := some existing
        newData := none
        confidence := none
        provider := none
        duplicate := true }, db, []⟩
    | none =>
      match extract_document o ext file_bytes filename true with
      | (Except.error e, calls) =>
        ⟨Except.error (HttpError.serverError ("Extraction failed: " ++ e)), db, calls⟩
      | (Except.ok r, calls) =>
        ⟨Except.ok {
            id := newId
            dupData := none
            newData := some r.data
            confidence := some r.confidence
            provider := some r.provider
            duplicate := false },
          (save_extraction db newId doc_hash filename r.data r.confidence).1, calls⟩

/-- The local adapter always sends exactly `images[:1]` to its provider. -/
theorem ollama_extract_calls (o : Oracle) (images : List String) :
    (ollama_extract o images).2 = [ProviderCall.ollama (images.take 1)] := by
  unfold ollama_extract
  cases hchat : o.ollamaChat (images.take 1) with
  | error e => rfl
  | ok text =>
    cases hpar : parse_json_response text with
    | error e => simp [hpar]
    | ok v => cases v <;> simp [hpar, asRecord]

/-- With a configured key, the remote adapter always sends all images. -/
theorem gemini_extract_calls (o : Oracle) (images : List String)
    (hkey : o.geminiKey = true) :
    (gemini_extract o images).2 = [ProviderCall.gemini images] := by
  unfold gemini_extract
  rw [if_neg (by simp [hkey])]
  cases hg : o.geminiGen images with
  | error e => rfl
  | ok text =>
    by_cases ht : text = ""
    · simp [ht]
    · cases hpar : parse_json_response text with
      | error e => simp [ht, hpar]
      | ok v => cases v <;> simp [ht, hpar, asRecord]

/-- The fallback block returns the remote success untouched, wraps the
remote failure into the aggregated error, and adds no calls of its own. -/
theorem gemini_fallback_spec (o : Oracle) (images : List String) :
    (∀ g, (gemini_extract o images).1 = Except.ok g →
        (gemini_fallback o images).1 = Except.ok g)
      ∧ (∀ e, (gemini_extract o images).1 = Except.error e →
        (gemini_fallback o images).1
          = Except.error ("All extraction methods failed. Last error: " ++ e))
      ∧ (gemini_fallback o images).2 = (gemini_extract o images).2 := by
  unfold gemini_fallback
  rcases hg : gemini_extract o images with ⟨res, calls⟩
  cases res <;> simp_all

/-- C2: for an orchestration run over prepared images (local preferred, as
the endpoint invokes it) with the remote key configured: the local adapter
is invoked first and receives only the first page image; a local result
scoring at least 0.8 is returned as is and the remote adapter is never
invoked; otherwise — low score or local exception — the remote adapter is
invoked with all prepared images and its result is returned regardless of
its score, a remote exception surfacing as the single aggregated error
referencing the remote failure. -/
theorem extract_document_fallback_policy
    (o : Oracle) (ext : Externals) (file_bytes : List Nat) (filename : String)
    (parsed : ParsedDoc) (img1 : String) (rest : List String)
    (hparse : parse_document ext file_bytes filename "vision" = Except.ok parsed)
    (himgs : parsed.images = some (img1 :: rest))
    (hkey : o.geminiKey = true) :
    (extract_document o ext file_bytes filename true).2.head?
        = some (ProviderCall.ollama [img1])
      ∧ (∀ r, (ollama_extract o (img1 :: rest)).1 = Except.ok r →
          4/5 ≤ r.confidence →
          extract_document o ext file_bytes filename true
            = (Except.ok r, [ProviderCall.ollama [img1]]))
      ∧ (((∀ r, (ollama_extract o (img1 :: rest)).1 = Except.ok r →
              r.confidence < 4/5)
            ∨ (∃ e, (ollama_extract o (img1 :: rest)).1 = Except.error e)) →
          (extract_document o ext file_bytes filename true).2
              = [ProviderCall.ollama [img1], ProviderCall.gemini (img1 :: rest)]
            ∧ (∀ g, (gemini_extract o (img1 :: rest)).1 = Except.ok g →
                (extract_document o ext file_bytes filename true).1 = Except.ok g)
            ∧ (∀ e2, (gemini_extract o (img1 :: rest)).1 = Except.error e2 →
                (extract_document o ext file_bytes filename true).1
                  = Except.error
                      ("All extraction methods failed. Last error: " ++ e2))) := by
  have hgcalls : (gemini_fallback o (img1 :: rest)).2
      = [ProviderCall.gemini (img1 :: rest)] := by
    rw [(gemini_fallback_spec o (img1 :: rest)).2.2,
      gemini_extract_calls o (img1 :: rest) hkey]
  rcases ho : ollama_extract o (img1 :: rest) with ⟨ores, ocalls⟩
  have hocalls : ocalls = [ProviderCall.ollama [img1]] := by
    have h := ollama_extract_calls o (img1 :: rest)
    rw [ho] at h
    exact h
  subst hocalls
  have hred : extract_document o ext file_bytes filename true
      = (match (ores, [ProviderCall.ollama [img1]]) with
        | (Except.ok r, calls) =>
          if r.confidence ≥ 4/5 then (Except.ok r, calls)
          else ((gemini_fallback o (img1 :: rest)).1,
            calls ++ (gemini_fallback o (img1 :: rest)).2)
        | (Except.error _, calls) =>
          ((gemini_fallback o (img1 :: rest)).1,
            calls ++ (gemini_fallback o (img1 :: rest)).2)) := by
    unfold extract_document
    rw [hparse]
    simp [himgs, truthyImages]
    rw [ho]
  refine ⟨?_, ?_, ?_⟩
  · rw [hred]
    cases ores with
    | ok r =>
      by_cases hc : r.confidence ≥ 4/5
      · simp [hc]
      · simp [hc]
    | error e => simp
  · intro r hr hconf
    have hr' : ores = Except.ok r := hr
    subst hr'
    rw [hred]
    simp [hconf]
  · intro hdisj
    have hfall : extract_document o ext file_bytes filename true
        = ((gemini_fallback o (img1 :: rest)).1,
          ProviderCall.ollama [img1] :: (gemini_fallback o (img1 :: rest)).2) := by
      rw [hred]
      cases ores with
      | ok r =>
        have hc : ¬ (r.confidence ≥ 4/5) := by
          rcases hdisj with hlow | ⟨e, he⟩
          · exact fun hge => absurd (hlow r rfl) (not_lt.mpr hge)
          · exact absurd he (by simp)
        simp [hc]
      | error e => simp
    rw [hfall, hgcalls]
    refine ⟨rfl, ?_, ?_⟩
    · intro g hg
      exact (gemini_fallback_spec o (img1 :: rest)).1 g hg
    · intro e2 he2
      exact (gemini_fallback_spec o (img1 :: rest)).2.1 e2 he2

/-- A concrete external-library instance: rasterization yields one page
handle `0`, encoded as the string `"0"`. -/
def ext0 : Externals :=
  { convert_from_bytes := fun _ => Except.ok [0]
    image_open := fun _ => 0
    image_to_base64 := fun n => toString n
    extract_text := fun _ => []
    extract_tables := fun _ => [] }

/-- A concrete oracle: the local model answers with a complete record, the
remote key is configured. -/
def o0 : Oracle :=
  { ollamaChat := fun _ => Except.ok
      "\x7b\"vendorName\": \"Acme\", \"totalAmount\": 1500, \"date\": \"2024-01-15\"\x7d"
    geminiKey := true
    geminiGen := fun _ => Except.ok "\x7b\"vendorName\": \"Acme\"\x7d" }

/-- What `parse_document` produces for `ext0` on a PDF input. -/
def parsed0 : ParsedDoc :=
  { file_type := "pdf"
    filename := "doc.pdf"
    strategy := "vision"
    images := some ["0"]
    image_count := some 1 }

/-- Witness for C2 at a concrete run: the first provider call of the
orchestration is the local adapter carrying exactly the first page image. -/
theorem extract_document_fallback_policy_witness :
    (extract_document o0 ext0 [37, 80, 68, 70] "doc.pdf" true).2.head?
      = some (ProviderCall.ollama ["0"]) :=
  (extract_document_fallback_policy o0 ext0 [37, 80, 68, 70] "doc.pdf" parsed0
    "0" [] (by rfl) (by rfl) rfl).1

/-- C6 (amended): for the `unknown` type `parse_document` itself does NOT
fail — it returns a result carrying no images, and it is `extract_document`
that raises the no-images preprocess error, before any provider call (the
trace is empty); a classified PDF rasterizing to zero pages likewise ends in
the no-images error with no provider call; for PDFs with pages the vision
strategy returns the page images base64-encoded in page order, and a raster
image input yields its single base64 encoding. -/
theorem parse_document_unknown_zero_pages_policy
    (o : Oracle) (ext : Externals) (file_bytes : List Nat) (filename : String)
    (pl : Bool) :
    (detect_file_type file_bytes filename = "unknown" →
        parse_document ext file_bytes filename "vision"
            = Except.ok {
                file_type := "unknown"
                filename := filename
                strategy := "vision" }
          ∧ extract_document o ext file_bytes filename pl
            = (Except.error "No images extracted from document", []))
      ∧ (detect_file_type file_bytes filename = "pdf" →
          ext.convert_from_bytes file_bytes = Except.ok [] →
          extract_document o ext file_bytes filename pl
            = (Except.error "No images extracted from document", []))
      ∧ (∀ pages, detect_file_type file_bytes filename = "pdf" →
          ext.convert_from_bytes file_bytes = Except.ok pages →
          (parse_document ext file_bytes filename "vision").map
              (fun p => p.images)
            = Except.ok (some (pages.map ext.image_to_base64)))
      ∧ (detect_file_type file_bytes filename = "image" →
          (parse_document ext file_bytes filename "vision").map
              (fun p => p.images)
            = Except.ok (some [ext.image_to_base64 (ext.image_open file_bytes)])) := by
  refine ⟨?_, ?_, ?_, ?_⟩
  · intro h
    have hp : parse_document ext file_bytes filename "vision"
        = Except.ok {
            file_type := "unknown"
            filename := filename
            strategy := "vision" } := by
      unfold parse_document
      rw [h]
      simp
    refine ⟨hp, ?_⟩
    unfold extract_document
    rw [hp]
    rfl
  · intro h hconv
    have hp : parse_document ext file_bytes filename "vision"
        = Except.ok {
            file_type := "pdf"
            filename := filename
            strategy := "vision"
            images := some []
            image_count := some 0 } := by
      unfold parse_document pdf_to_images
      rw [h, hconv]
      simp
    unfold extract_document
    rw [hp]
    rfl
  · intro pages h hconv
    have hp : parse_document ext file_bytes filename "vision"
        = Except.ok {
            file_type := "pdf"
            filename := filename
            strategy := "vision"
            images := some (pages.map ext.image_to_base64)
            image_count := some pages.length } := by
      unfold parse_document pdf_to_images
      rw [h, hconv]
      simp
    rw [hp]
    rfl
  · intro h
    have hp : parse_document ext file_bytes filename "vision"
        = Except.ok {
            file_type := "image"
            filename := filename
            strategy := "vision"
            images := some [ext.image_to_base64 (ext.image_open file_bytes)]
            image_count := some 1 } := by
      unfold parse_document
      rw [h]
      simp
    rw [hp]
    rfl

/-- C6 counterexample: on an input detected as `unknown`, `parse_document`
returns successfully (with no images) instead of failing with a preprocess
error. -/
theorem parse_document_unknown_returns_ok :
    detect_file_type [0] "mystery.bin" = "unknown"
      ∧ parse_document ext0 [0] "mystery.bin" "vision"
        = Except.ok {
            file_type := "unknown"
            filename := "mystery.bin"
            strategy := "vision" } :=
  ⟨rfl, rfl⟩

/-- Fingerprint uniqueness: no two stored extraction rows share a content
hash. -/
def uniqueHashes (db : Db) : Prop :=
  db.extractions.Pairwise (fun a b => a.doc_hash ≠ b.doc_hash)

/-- A negative duplicate check means no stored row carries the hash. -/
theorem check_duplicate_none (db : Db) (h : String)
    (hnone : check_duplicate db h = none) :
    ∀ r ∈ db.extractions, r.doc_hash ≠ h := by
  intro r hr hh
  have hsome : (db.extractions.find? (fun x => x.doc_hash = h)).isSome := by
    rw [List.find?_isSome]
    exact ⟨r, hr, by simp [hh]⟩
  obtain ⟨r1, hr1⟩ := Option.isSome_iff_exists.mp hsome
  have hmem1 : r1 ∈ db.extractions := List.mem_of_find?_eq_some hr1
  have hsome2 : (db.extractions.find? (fun x => x.id = r1.id)).isSome := by
    rw [List.find?_isSome]
    exact ⟨r1, hmem1, by simp⟩
  obtain ⟨r2, hr2⟩ := Option.isSome_iff_exists.mp hsome2
  unfold check_duplicate get_extraction at hnone
  rw [hr1] at hnone
  simp [hr2] at hnone

/-- Inserting a row whose hash is fresh preserves fingerprint uniqueness. -/
theorem uniqueHashes_save (db : Db) (eid dh fn : String)
    (data : List (String × JValue)) (conf : ℚ)
    (hu : uniqueHashes db) (hnew : ∀ r ∈ db.extractions, r.doc_hash ≠ dh) :
    uniqueHashes (save_extraction db eid dh fn data conf).1 := by
  obtain ⟨row, hrow, hhash⟩ : ∃ row : ExtractionRow,
      (save_extraction db eid dh fn data conf).1.extractions
          = db.extractions ++ [row]
        ∧ row.doc_hash = dh := ⟨_, rfl, rfl⟩
  unfold uniqueHashes
  rw [hrow, List.pairwise_append]
  refine ⟨hu, List.pairwise_singleton _ _, ?_⟩
  intro a ha b hb
  rcases List.mem_singleton.mp hb with rfl
  rw [hhash]
  exact hnew a ha

/-- C1: an upload whose bytes fingerprint to an already-stored extraction
resolves to the existing record: the response is the duplicate response
carrying the original id, no provider adapter is invoked (the call trace is
empty), the database is unchanged — and, for every endpoint call whatsoever,
fingerprint uniqueness of the store is preserved, so no second row with the
same content fingerprint is ever created. -/
theorem extract_endpoint_dedup
    (o : Oracle) (ext : Externals) (hashFn : List Nat → String) (newId : String)
    (db : Db) (content_type filename : String) (file_bytes : List Nat)
    (existing : FullExtraction)
    (hct : allowed_types.contains content_type = true)
    (hsize : file_bytes.length ≤ 10 * 1024 * 1024)
    (hdup : check_duplicate db (hashFn file_bytes) = some existing) :
    (extract_endpoint o ext hashFn newId db content_type filename
          file_bytes).response
        = Except.ok {
            id := existing.id
            dupData := some existing
            newData := none
            confidence := none
            provider := none
            duplicate := true }
      ∧ (extract_endpoint o ext hashFn newId db content_type filename
          file_bytes).calls = []
      ∧ (extract_endpoint o ext hashFn newId db content_type filename
          file_bytes).db = db
      ∧ (∀ (o2 : Oracle) (ext2 : Externals) (newId2 : String) (db2 : Db)
          (ct2 fn2 : String) (fb2 : List Nat), uniqueHashes db2 →
          uniqueHashes (extract_endpoint o2 ext2 hashFn newId2 db2 ct2 fn2
            fb2).db) := by
  have hend : extract_endpoint o ext hashFn newId db content_type filename
      file_bytes
      = ⟨Except.ok {
          id := existing.id
          dupData := some existing
          newData := none
          confidence := none
          provider := none
          duplicate := true }, db, []⟩ := by
    unfold extract_endpoint
    rw [if_neg (by rw [hct]; simp), if_neg (by omega)]
    simp only [hdup]
  refine ⟨by rw [hend], by rw [hend], by rw [hend], ?_⟩
  intro o2 ext2 newId2 db2 ct2 fn2 fb2 hu
  unfold extract_endpoint
  by_cases h1 : allowed_types.contains ct2 = false
  · rw [if_pos h1]
    exact hu
  · rw [if_neg h1]
    by_cases h2 : fb2.length > 10 * 1024 * 1024
    · rw [if_pos h2]
      exact hu
    · rw [if_neg h2]
      cases hdup2 : check_duplicate db2 (hashFn fb2) with
      | some x =>
        simp only [hdup2]
        exact hu
      | none =>
        simp only [hdup2]
        rcases hx : extract_document o2 ext2 fb2 fn2 true with ⟨res, calls⟩
        cases res with
        | error e =>
          simp only [hx]
          exact hu
        | ok r =>
          simp only [hx]
          exact uniqueHashes_save db2 newId2 (hashFn fb2) fn2 r.data
            r.confidence hu (check_duplicate_none db2 (hashFn fb2) hdup2)

/-- A one-row store holding the extraction `ID0` with fingerprint `H`. -/
def db1 : Db := (save_extraction emptyDb "ID0" "H" "a.pdf" [] 1).1

/-- The full record `get_extraction` reconstructs for `ID0` in `db1`. -/
def dupFull : FullExtraction :=
  { id := "ID0"
    documentType := some "Unknown"
    vendorName := some ""
    totalAmount := 0
    currency := some "USD"
    date := none
    dueDate := none
    taxAmount := 0
    invoiceNumber := some ""
    vendorAddress := none
    summary := none
    lineItems := [] }

/-- Witness for C1 at a concrete duplicate upload: the duplicate response
carries the original id, no provider call happens, the store is unchanged. -/
theorem extract_endpoint_dedup_witness :
    (extract_endpoint o0 ext0 (fun _ => "H") "NEW" db1 "application/pdf"
          "a.pdf" [1, 2]).response
        = Except.ok {
            id := "ID0"
            dupData := some dupFull
            newData := none
            confidence := none
            provider := none
            duplicate := true }
      ∧ (extract_endpoint o0 ext0 (fun _ => "H") "NEW" db1 "application/pdf"
          "a.pdf" [1, 2]).calls = []
      ∧ (extract_endpoint o0 ext0 (fun _ => "H") "NEW" db1 "application/pdf"
          "a.pdf" [1, 2]).db = db1 := by
  have h := extract_endpoint_dedup o0 ext0 (fun _ => "H") "NEW" db1
    "application/pdf" "a.pdf" [1, 2] dupFull (by rfl) (by decide) (by rfl)
  exact ⟨h.1, h.2.1, h.2.2.1⟩
